import Mathlib

/-!
# Verification of the slotmanager banner compositing backend

Shallow embedding of `src/backend/main.py`, `src/backend/utils.py` and
`src/backend/models.py` (leonalbania2016/slotmanager).

Modelling conventions:
* PIL images are opaque to the program (the repository never inspects pixels);
  an image is modelled as its dimensions, an abstract content id, and the list
  of drawing operations applied to it, in order.  Python's in-place mutation of
  image objects is modelled explicitly with a heap (`List PImage`, addresses are
  indices) where the claims require reasoning about aliasing / non-mutation.
* Machine floats used by the source only in `ratio = target / height` style
  computations are idealised as exact rational / integer arithmetic
  (`int(w * (t / h))` becomes `w * t / h` in `Nat`); Python `//` on ints is
  `Int.fdiv` (floor division).
* Network and font-file lookups are parameters (`RenderEnv`), so every
  definition is executable and deterministic relative to its environment.
-/

namespace SlotManager

/-- Predicate `listPre p s = true` iff `p` is an initial segment of `s` (structural
implementation, so that concrete strings evaluate inside the kernel). -/
def listPre : List Char → List Char → Bool
  | [], _ => true
  | _ :: _, [] => false
  | a :: as, b :: bs => a == b && listPre as bs

/-- Python `str.startswith`. -/
def pyStartsWith (s p : String) : Bool := listPre p.data s.data

/-- Python `str.endswith`. -/
def pyEndsWith (s p : String) : Bool := listPre p.data.reverse s.data.reverse

/-- Python `str.strip()` (no argument): drop leading and trailing whitespace. -/
def pyStrip (s : String) : String :=
  String.mk (((s.data.dropWhile Char.isWhitespace).reverse.dropWhile
    Char.isWhitespace).reverse)

/-- Python `int()` on an exact rational: truncation toward zero. -/
def pyInt (q : ℚ) : Int := Int.tdiv q.num q.den

/-- Symbolic drawing operations recorded on an image.  `glowText` stands for the
whole glow pipeline of `_render_text_with_glow` (upscale ×2, 7×7 offset shadow
pass, Gaussian blur, composite, downscale, paste), whose intermediate layers are
function-local; `pasteEmoji` is `img.paste(em, (ex, ey), em)`; `quantize` is
`convert("P", palette=ADAPTIVE, dither=NONE)`. -/
inductive DrawOp where
  | glowText (text : String) (fontPath : Option String) (fontSizePx : Nat)
      (x y : Int) (color : String)
  | pasteEmoji (w h : Nat) (x y : Int)
  | quantize
deriving Repr, DecidableEq

/-- A PIL image: pixel dimensions, an abstract id for the base pixel content,
and the drawing operations applied on top of that content. -/
structure PImage where
  width : Nat
  height : Nat
  content : Nat
  ops : List DrawOp
deriving Repr, DecidableEq

/-- Result of font resolution: a FreeType font loaded from a path at a pixel
size, or PIL's built-in fixed-size bitmap font (`ImageFont.load_default()`). -/
inductive FontHandle where
  | truetype (path : String) (sizePx : Nat)
  | bitmapDefault
deriving Repr, DecidableEq

/-- The path recorded by a handle, if any (duck-typed `font.path` probing). -/
def FontHandle.pathOf : FontHandle → Option String
  | .truetype p _ => some p
  | .bitmapDefault => none

/-- Embeds `ImageFont.truetype(path, size)`: succeeds iff the environment can load the
file at `path` as an outline font, otherwise raises (modelled as `Except`). -/
def truetypeLoad (avail : String → Bool) (path : String) (sizePx : Nat) :
    Except String FontHandle :=
  if avail path then .ok (.truetype path sizePx) else .error path

/-- Constant `BASE_DIR` of `backend/main.py` (`os.path.dirname(__file__)`). -/
def baseDir : String := "backend"

/-- The fixed system fallback font path used by both resolvers. -/
def dejavuSysPath : String := "/usr/share/fonts/truetype/dejavu/DejaVuSans.ttf"

/-- The local path `_load_font` tries first:
`os.path.join(BASE_DIR, "fonts", font_family or "DejaVuSans.ttf")`. -/
def localFontPath (fontFamily : Option String) : String :=
  baseDir ++ "/fonts/" ++ fontFamily.getD "DejaVuSans.ttf"

/-- Embeds `_load_font` of `backend/main.py` (lines 102-111): try the family under
`./fonts`, then the system DejaVu path, then the built-in bitmap font; every
failure is caught and falls through. -/
def loadFont (avail : String → Bool) (fontFamily : Option String) (sizePx : Nat) :
    FontHandle :=
  match truetypeLoad avail (localFontPath fontFamily) sizePx with
  | .ok f => f
  | .error _ =>
    match truetypeLoad avail dejavuSysPath sizePx with
    | .ok f => f
    | .error _ => .bitmapDefault

/-- Embeds `load_font` of `backend/utils.py` (lines 10-17): the family name is used
directly as a path, then the system DejaVu path, then the bitmap font. -/
def loadFontUtils (avail : String → Bool) (fontFamily : String) (sizePx : Nat) :
    FontHandle :=
  match truetypeLoad avail fontFamily sizePx with
  | .ok f => f
  | .error _ =>
    match truetypeLoad avail dejavuSysPath sizePx with
    | .ok f => f
    | .error _ => .bitmapDefault

/-- Environment of a render: the network (url ↦ decoded image dimensions, or
`none` on any fetch/decode failure), font-file availability, and the text
measurement oracle (`draw.textbbox` / `draw.textsize`) for a resolved font. -/
structure RenderEnv where
  net : String → Option (Nat × Nat)
  fontFile : String → Bool
  measure : FontHandle → String → Nat × Nat

/-- Cache `EMOJI_IMG_CACHE` of `backend/main.py` plus a fetch counter used to state
the cache-hit claims.  The source keys the dict by the f-string
`f"{url}@{target_px}"`; since the target is rendered after the last `@` and
contains no `@` itself, that string key is in bijection with the pair
`(url, target_px)`, which is how the key is modelled. -/
structure EmojiCache where
  entries : List ((String × Nat) × (Nat × Nat))
  fetchCount : Nat
deriving Repr, DecidableEq

/-- The empty process-start cache. -/
def emptyEmojiCache : EmojiCache := { entries := [], fetchCount := 0 }

/-- The scaling step of `_fetch_emoji_image`:
`ratio = target_px / max(1, h); new_w = max(1, int(w*ratio));
new_h = max(1, int(h*ratio))` with exact arithmetic. -/
def scaleToHeight (w h targetPx : Nat) : Nat × Nat :=
  let hh := max 1 h
  (max 1 (w * targetPx / hh), max 1 (h * targetPx / hh))

/-- Embeds `_fetch_emoji_image` of `backend/main.py` (lines 74-93): reject non-http
references, consult the `(url, target_px)`-keyed cache, otherwise fetch, decode
to RGBA, scale the height to `target_px`, and cache.  Any fetch/decode failure
returns `none` (the `except` clause). -/
def fetchEmojiImage (net : String → Option (Nat × Nat)) (c : EmojiCache)
    (url : String) (targetPx : Nat) : Option (Nat × Nat) × EmojiCache :=
  if url = "" ∨ pyStartsWith url "http" = false then (none, c)
  else
    match c.entries.lookup (url, targetPx) with
    | some img => (some img, c)
    | none =>
      match net url with
      | none => (none, { c with fetchCount := c.fetchCount + 1 })
      | some (w, h) =>
        let img := scaleToHeight w h targetPx
        (some img,
          { entries := ((url, targetPx), img) :: c.entries,
            fetchCount := c.fetchCount + 1 })

/-- Cache `_EMOJI_CACHE` of `backend/utils.py`: keyed by the url string alone. -/
structure UtilsEmojiCache where
  entries : List (String × (Nat × Nat))
  fetchCount : Nat
deriving Repr, DecidableEq

/-- The empty utils cache. -/
def emptyUtilsCache : UtilsEmojiCache := { entries := [], fetchCount := 0 }

/-- Cached fetch part of `fetch_emoji_bitmap` in `backend/utils.py`
(lines 43-56): the cache is consulted and filled with the url alone as key;
scaling sets the height to exactly `target_height` and the width to
`int(w * (target_height / h))` (no 1px floor).  The error paths inside the
`try` both return `none` and cache nothing: a zero source height raises
`ZeroDivisionError` in `ratio`, and a zero computed width
(`w * target_height < h`, or a zero target height) makes Pillow's `resize`
raise `ValueError` (dimensions must be positive). -/
def fetchEmojiBitmapCore (net : String → Option (Nat × Nat))
    (c : UtilsEmojiCache) (url : String) (targetHeight : Nat) :
    Option (Nat × Nat) × UtilsEmojiCache :=
  match c.entries.lookup url with
  | some img => (some img, c)
  | none =>
    match net url with
    | none => (none, { c with fetchCount := c.fetchCount + 1 })
    | some (w, h) =>
      if h = 0 then (none, { c with fetchCount := c.fetchCount + 1 })
      else if w * targetHeight / h = 0 ∨ targetHeight = 0 then
        (none, { c with fetchCount := c.fetchCount + 1 })
      else
        let img := (w * targetHeight / h, targetHeight)
        (some img,
          { entries := (url, img) :: c.entries,
            fetchCount := c.fetchCount + 1 })

/-- Python `str.strip("<>")`: drop every leading and trailing `<` or `>`. -/
def pyStripAngles (s : String) : String :=
  let isAngle := fun c => c = '<' ∨ c = '>'
  String.mk ((((s.toList.dropWhile isAngle).reverse.dropWhile isAngle).reverse))

/-- Python `str.split(":")` on the character list. -/
def splitColon : List Char → List (List Char)
  | [] => [[]]
  | c :: rest =>
    let r := splitColon rest
    if c = ':' then [] :: r
    else
      match r with
      | [] => [[c]]
      | g :: gs => (c :: g) :: gs

/-- Computes `parts = emoji_value.strip("<>").split(":")` as strings. -/
def shortcodeParts (s : String) : List String :=
  (splitColon (pyStripAngles s).toList).map String.mk

/-- The CDN url both resolvers derive:
`https://cdn.discordapp.com/emojis/{id}.{ext}?quality=lossless`. -/
def cdnUrl (eid : String) (animated : Bool) : String :=
  "https://cdn.discordapp.com/emojis/" ++ eid ++ "." ++
    (if animated then "gif" else "png") ++ "?quality=lossless"

/-- Url derivation of `fetch_emoji_bitmap` in `backend/utils.py` (lines 24-41):
empty → none; `http…` → used unchanged; `<…>` with at least two `:`-parts →
CDN url (`a` flag selects `.gif`, else `.png`); anything else → none (caller
draws the literal text). -/
def emojiRefToUrlUtils (v : String) : Option String :=
  if v = "" then none
  else if pyStartsWith v "http" then some v
  else if pyStartsWith v "<" && pyEndsWith v ">" then
    let parts := shortcodeParts v
    if 2 ≤ parts.length then
      some (cdnUrl (parts.getLastD "") (parts.headD "" = "a"))
    else none
  else none

/-- Embeds `fetch_emoji_bitmap` of `backend/utils.py` (lines 19-56): derive the url,
then the cached fetch. -/
def fetchEmojiBitmap (net : String → Option (Nat × Nat)) (c : UtilsEmojiCache)
    (emojiValue : String) (targetHeight : Nat) :
    Option (Nat × Nat) × UtilsEmojiCache :=
  match emojiRefToUrlUtils emojiValue with
  | none => (none, c)
  | some url => fetchEmojiBitmapCore net c url targetHeight

/-- Embeds `to_emoji_value` of `backend/main.py` (lines 441-454): falsy values pass
through; otherwise strip whitespace; `http…` unchanged; the bracketed pattern
(`<` … `>` containing `:`) with at least two parts becomes a CDN url; anything
else is returned as literal text. -/
def toEmojiValue (rawEmoji : Option String) : Option String :=
  match rawEmoji with
  | none => none
  | some s =>
    if s = "" then some s
    else
      let val := pyStrip s
      if pyStartsWith val "http" then some val
      else if pyStartsWith val "<" && pyEndsWith val ">" && val.data.contains ':' then
        let parts := shortcodeParts val
        if 2 ≤ parts.length then
          some (cdnUrl (parts.getLastD "") (parts.headD "" = "a"))
        else some val
      else some val

/-- Append `op` to the operations recorded on an image. -/
def addOp (img : PImage) (op : DrawOp) : PImage :=
  { img with ops := img.ops ++ [op] }

/-- A Python heap of image objects; addresses are list indices. -/
abbrev Heap := List PImage

/-- Allocate a fresh image object (e.g. `base_img.copy()` allocates a copy). -/
def heapAlloc (h : Heap) (img : PImage) : Nat × Heap :=
  (h.length, h ++ [img])

/-- Mutate the image object at address `a` in place by drawing `op` on it. -/
def heapDraw (h : Heap) (a : Nat) (op : DrawOp) : Heap :=
  match h.get? a with
  | some img => h.set a (addOp img op)
  | none => h

/-- The symbolic record of one glow-text render: the text, the duck-typed font
path and size recovered for the upscaled re-render (`getattr(font, "path")` /
`getattr(font, "size", 48)`; the bitmap fallback has neither), position and
colour. -/
def glowOp (text : String) (font : FontHandle) (x y : Int) (color : String) :
    DrawOp :=
  .glowText text font.pathOf
    (match font with | .truetype _ s => s | .bitmapDefault => 0) x y color

/-- Embeds `_render_text_with_glow` of `backend/main.py` (lines 113-151): all of its
intermediate layers (`large`, `text_layer`, `glow`, `combined`, `final`) are
freshly created function-local objects; its only effect on pre-existing state
is the final `base_img.paste(final, (0, 0), final)` onto the canvas argument,
recorded as one `glowText` operation (see `glowOp`). -/
def renderTextWithGlowH (h : Heap) (canvas : Nat) (text : String)
    (font : FontHandle) (x y : Int) (color : String) : Heap :=
  heapDraw h canvas (glowOp text font x y color)

/-- Python `int(font_size or 64)`: `None` and `0` both select the default. -/
def pyOrNat (v : Option Nat) (dflt : Nat) : Nat :=
  match v with
  | none => dflt
  | some n => if n = 0 then dflt else n

/-- Python `font_color or "#FFFFFF"`: `None` and `""` both select the default. -/
def pyOrStr (v : Option String) (dflt : String) : String :=
  match v with
  | none => dflt
  | some s => if s = "" then dflt else s

/-- The vertical band computation shared by `_compose_slot_frame`
(`backend/main.py` lines 177-180) and `draw_slot_on_image`
(`backend/utils.py` lines 65-70): `top = padding_top`,
`bottom = max(0, H - padding_bottom)`, `usable = max(1, bottom - top)`.
Returns `(top, bottom, usable)`. -/
def vertBand (H : Int) (paddingTop paddingBottom : Option Int) : Int × Int × Int :=
  let top := paddingTop.getD 0
  let bottom := max 0 (H - paddingBottom.getD 0)
  (top, bottom, max 1 (bottom - top))

/-- The centered team label of `_compose_slot_frame` (`backend/main.py`
lines 182-187): `f"{teamname} {teamtag}"` when both are truthy, else
`teamname or teamtag or "FreeSlot"`. -/
def mainLabel (teamname teamtag : String) : String :=
  if teamname ≠ "" ∧ teamtag ≠ "" then teamname ++ " " ++ teamtag
  else if teamname ≠ "" then teamname
  else if teamtag ≠ "" then teamtag
  else "FreeSlot"

/-- The team label of `draw_slot_on_image` (`backend/utils.py` line 74):
`f"{teamname} - {teamtag}"` when both are truthy, else
`teamname or teamtag` (no placeholder). -/
def mainLabelUtils (teamname teamtag : String) : String :=
  if teamname ≠ "" ∧ teamtag ≠ "" then teamname ++ " - " ++ teamtag
  else if teamname ≠ "" then teamname
  else teamtag

/-- Embeds `_compose_slot_frame` of `backend/main.py` (lines 157-222), heap-level:
copy the base frame, resolve font/colour/band, glow-render the slot number at
the left inset, the team label centered on the full width, then the emoji
(pasted bitmap for an http reference, glow text for other non-empty text).
Returns the address of the new frame, the heap, and the emoji cache. -/
def composeSlotFrameH (env : RenderEnv) (c : EmojiCache) (h : Heap) (baseA : Nat)
    (slotNumber : Int) (teamname teamtag : String) (emojiValue : Option String)
    (fontFamily : Option String) (fontSize : Option Nat) (fontColor : Option String)
    (paddingTop paddingBottom : Option Int) : Nat × Heap × EmojiCache :=
  let base := (h.get? baseA).getD { width := 0, height := 0, content := 0, ops := [] }
  let (imgA, h1) := heapAlloc h base
  let W : Int := base.width
  let H : Int := base.height
  let fsize := pyOrNat fontSize 64
  let font := loadFont env.fontFile fontFamily fsize
  let color := pyOrStr fontColor "#FFFFFF"
  let band := vertBand H paddingTop paddingBottom
  let top := band.1
  let usableH := band.2.2
  let mainText := mainLabel teamname teamtag
  let slotText := toString slotNumber ++ ":"
  let _slotWH := env.measure font slotText
  let mainWH := env.measure font mainText
  let yText := top + Int.fdiv (usableH - (mainWH.2 : Int)) 2
  let h2 := renderTextWithGlowH h1 imgA slotText font 24 yText color
  let centerX := Int.fdiv (W - (mainWH.1 : Int)) 2
  let h3 := renderTextWithGlowH h2 imgA mainText font centerX yText color
  match emojiValue with
  | none => (imgA, h3, c)
  | some ev =>
    if ev = "" then (imgA, h3, c)
    else if pyStartsWith ev "http" then
      match fetchEmojiImage env.net c ev fsize with
      | (some em, cNew) =>
        let ex := W - (em.1 : Int) - 24
        let ey := top + Int.fdiv (usableH - (em.2 : Int)) 2
        (imgA, heapDraw h3 imgA (.pasteEmoji em.1 em.2 ex ey), cNew)
      | (none, cNew) => (imgA, h3, cNew)
    else
      let eWH := env.measure font ev
      let ex := W - (eWH.1 : Int) - 24
      let ey := top + Int.fdiv (usableH - (eWH.2 : Int)) 2
      (imgA, renderTextWithGlowH h3 imgA ev font ex ey color, c)

/-- Pure characterisation of the frame `_compose_slot_frame` produces from a
given base frame value: the same computation as `composeSlotFrameH` with the
drawing operations accumulated on the value instead of on the heap. -/
def composeImage (env : RenderEnv) (c : EmojiCache) (base : PImage)
    (slotNumber : Int) (teamname teamtag : String) (emojiValue : Option String)
    (fontFamily : Option String) (fontSize : Option Nat) (fontColor : Option String)
    (paddingTop paddingBottom : Option Int) : PImage × EmojiCache :=
  let W : Int := base.width
  let H : Int := base.height
  let fsize := pyOrNat fontSize 64
  let font := loadFont env.fontFile fontFamily fsize
  let color := pyOrStr fontColor "#FFFFFF"
  let band := vertBand H paddingTop paddingBottom
  let top := band.1
  let usableH := band.2.2
  let mainText := mainLabel teamname teamtag
  let slotText := toString slotNumber ++ ":"
  let mainWH := env.measure font mainText
  let yText := top + Int.fdiv (usableH - (mainWH.2 : Int)) 2
  let i1 := addOp base (glowOp slotText font 24 yText color)
  let centerX := Int.fdiv (W - (mainWH.1 : Int)) 2
  let i2 := addOp i1 (glowOp mainText font centerX yText color)
  match emojiValue with
  | none => (i2, c)
  | some ev =>
    if ev = "" then (i2, c)
    else if pyStartsWith ev "http" then
      match fetchEmojiImage env.net c ev fsize with
      | (some em, cNew) =>
        let ex := W - (em.1 : Int) - 24
        let ey := top + Int.fdiv (usableH - (em.2 : Int)) 2
        (addOp i2 (.pasteEmoji em.1 em.2 ex ey), cNew)
      | (none, cNew) => (i2, cNew)
    else
      let eWH := env.measure font ev
      let ex := W - (eWH.1 : Int) - 24
      let ey := top + Int.fdiv (usableH - (eWH.2 : Int)) 2
      (addOp i2 (glowOp ev font ex ey color), c)

/-! ## Animation pipeline (`_iter_gif_frames` and the GIF branch of
`generate_single` / `send_slots`) -/

/-- A source GIF: the ordered frames, each an abstract content id paired with
its true per-frame duration in integer milliseconds, and the single duration
value the `imageio` reader's `get_meta_data()` reports for the file (in
practice the first frame's; `none` when the container declares none). -/
structure GifSource where
  frames : List (Nat × Nat)
  metaDurationMs : Option Nat
deriving Repr, DecidableEq

/-- Computes `duration = (meta.get("duration", 80) or 80)`: a missing key and a falsy
(zero) value both select the 80 ms default. -/
def effectiveMetaDuration (g : GifSource) : Nat :=
  match g.metaDurationMs with
  | none => 80
  | some 0 => 80
  | some d => d

/-- Embeds `_iter_gif_frames` of `backend/main.py` (lines 95-100): the metadata is
read once, converted to seconds, and the same duration is yielded with every
frame of the reader. -/
def iterGifFrames (g : GifSource) : List (Nat × ℚ) :=
  let duration : ℚ := (effectiveMetaDuration g : ℚ) / 1000
  g.frames.map (fun f => (f.1, duration))

/-- The re-encoded animated output: palette-quantized frames, the declared
per-frame durations in integer milliseconds, the loop count (`0` = forever)
and the disposal method. -/
structure GifOutput where
  frames : List PImage
  durationsMs : List Int
  loopCount : Nat
  disposal : Nat
deriving Repr, DecidableEq

/-- The loop body of the GIF branch: decode one frame to RGBA at the source
dimensions, compose it with the slot settings, and append the composed frame
and the yielded duration (`frames.append(frm); durations.append(dur)`). -/
def composeGifStep (env : RenderEnv) (frameW frameH : Nat) (slotNumber : Int)
    (teamname teamtag : String) (emojiValue : Option String)
    (fontFamily : Option String) (fontSize : Option Nat)
    (fontColor : Option String) (paddingTop paddingBottom : Option Int)
    (acc : List PImage × List ℚ × EmojiCache) (fd : Nat × ℚ) :
    List PImage × List ℚ × EmojiCache :=
  let frame : PImage := { width := frameW, height := frameH, content := fd.1, ops := [] }
  let r := composeImage env acc.2.2 frame slotNumber teamname teamtag
    emojiValue fontFamily fontSize fontColor paddingTop paddingBottom
  (acc.1 ++ [r.1], acc.2.1 ++ [fd.2], r.2)

/-- The GIF branch of `generate_single` in `backend/main.py` (lines 539-562),
identical in `send_slots` (lines 602-624): compose every yielded frame with
the slot's settings, collect the yielded durations, quantize each frame to an
adaptive palette without dithering, and save with
`duration=[int(d * 1000) for d in durations], loop=0, disposal=2`.
`frameW`/`frameH` are the pixel dimensions of the decoded source frames. -/
def generateSingleGif (env : RenderEnv) (c : EmojiCache) (g : GifSource)
    (frameW frameH : Nat) (slotNumber : Int) (teamname teamtag : String)
    (emojiValue : Option String) (fontFamily : Option String)
    (fontSize : Option Nat) (fontColor : Option String)
    (paddingTop paddingBottom : Option Int) : GifOutput × EmojiCache :=
  let folded := (iterGifFrames g).foldl
    (composeGifStep env frameW frameH slotNumber teamname teamtag emojiValue
      fontFamily fontSize fontColor paddingTop paddingBottom) ([], [], c)
  ({ frames := folded.1.map (fun f => addOp f .quantize),
     durationsMs := folded.2.1.map (fun d => pyInt (d * 1000)),
     loopCount := 0,
     disposal := 2 }, folded.2.2)

/-! ## Delivery loop (`send_slots`, `backend/main.py` lines 575-656) -/

/-- A response of the remote messaging endpoint: HTTP status, the declared
`retry_after` interval in seconds (when present in the JSON body), and the id
of the created message (when present). -/
structure DResp where
  status : Nat
  retryAfter : Option ℚ
  msgId : Option String
deriving Repr, DecidableEq

/-- Observable actions of one delivery pass: message creation, in-place edit,
and sleeping. -/
inductive DAction where
  | create (channelId : String) (slotNumber : Int)
  | edit (channelId : String) (messageId : String) (slotNumber : Int)
  | sleep (seconds : ℚ)
deriving Repr, DecidableEq

/-- Returns `true` for the network actions, `false` for sleeps. -/
def DAction.isNetwork : DAction → Bool
  | .sleep _ => false
  | _ => true

/-- The delivery-relevant fields of one slot record. -/
structure SlotDelivery where
  slotNumber : Int
  discordMessageId : Option String
  discordChannelId : Option String
deriving Repr, DecidableEq

/-- The per-slot delivery loop of `send_slots` (lines 598-656), with rendering
elided (it does not affect delivery control flow): for each slot, edit when a
prior message id exists for this exact channel, otherwise create and — on a
2xx response — store the new message id and channel; on a 429 response sleep
`retry_after + 0.3` (default interval 1) and continue with the NEXT slot;
otherwise sleep the fixed 0.4 s pacing delay.  `server k` is the response to
the k-th request of the pass.  Returns the emitted actions, the updated slot
records, and the next request index. -/
def sendSlotsLoop (server : Nat → DResp) (channelId : String) :
    List SlotDelivery → Nat → List DAction × List SlotDelivery × Nat
  | [], k => ([], [], k)
  | s :: rest, k =>
    let resp := server k
    let isEdit := s.discordMessageId.isSome && (s.discordChannelId == some channelId)
    let act : DAction :=
      if isEdit then .edit channelId (s.discordMessageId.getD "") s.slotNumber
      else .create channelId s.slotNumber
    let sNew :=
      if isEdit then s
      else if 200 ≤ resp.status ∧ resp.status ≤ 299 then
        { s with discordMessageId := resp.msgId, discordChannelId := some channelId }
      else s
    let pause : DAction :=
      if resp.status = 429 then .sleep (resp.retryAfter.getD 1 + 3/10)
      else .sleep (2/5)
    let r := sendSlotsLoop server channelId rest (k + 1)
    (act :: pause :: r.1, sNew :: r.2.1, r.2.2)

/-! ## Slot records and lazy initialisation (`models.py` and `list_slots`) -/

/-- One row of the `slots` table with the column defaults of
`backend/models.py` (lines 21-42); the timestamp column is server-managed and
not returned by any modelled route, so it is omitted. -/
structure SlotRow where
  guildId : String
  slotNumber : Int
  teamname : String
  teamtag : String
  emoji : String
  emojiUrl : String
  backgroundUrl : String
  isGif : Nat
  fontFamily : String
  fontSize : Nat
  fontColor : String
  paddingTop : Int
  paddingBottom : Int
  discordMessageId : Option String
  discordChannelId : Option String
deriving Repr, DecidableEq

/-- Row `Slot(guild_id=guild_id, slot_number=n)`: a fresh row carrying every
column default. -/
def defaultSlot (g : String) (n : Int) : SlotRow :=
  { guildId := g, slotNumber := n, teamname := "", teamtag := "", emoji := "",
    emojiUrl := "", backgroundUrl := "", isGif := 0,
    fontFamily := "DejaVuSans.ttf", fontSize := 48, fontColor := "#FFFFFF",
    paddingTop := 0, paddingBottom := 0,
    discordMessageId := none, discordChannelId := none }

/-- The `ORDER BY slot_number` ordering. -/
def slotLe (a b : SlotRow) : Prop := a.slotNumber ≤ b.slotNumber

instance : DecidableRel slotLe := fun _ _ => inferInstanceAs (Decidable (_ ≤ _))

instance : IsTotal SlotRow slotLe := ⟨fun a b => Int.le_total a.slotNumber b.slotNumber⟩

instance : IsTrans SlotRow slotLe := ⟨fun _ _ _ => Int.le_trans⟩

/-- Embeds `db.query(Slot).filter(Slot.guild_id == guild_id).order_by(Slot.slot_number).all()`. -/
def querySlots (db : List SlotRow) (g : String) : List SlotRow :=
  List.insertionSort slotLe (db.filter (fun s => s.guildId == g))

/-- The 24 default rows `list_slots` creates, for `n in range(2, 26)`. -/
def defaultSlots (g : String) : List SlotRow :=
  (List.range' 2 24).map (fun n : Nat => defaultSlot g (n : Int))

/-- Embeds `list_slots` of `backend/main.py` (lines 368-402): query the guild's rows
ordered by slot number; when none exist, add a default row for every
`n in range(2, 26)`, commit, and re-query.  Returns the rows the route renders
and the database after the call. -/
def listSlots (db : List SlotRow) (g : String) : List SlotRow × List SlotRow :=
  let slots := querySlots db g
  if slots.isEmpty then
    let dbNew := db ++ defaultSlots g
    (querySlots dbNew g, dbNew)
  else (slots, db)

theorem heap_get_concat (h : Heap) (x : PImage) :
    (h ++ [x]).get? h.length = some x := by
  induction h with
  | nil => rfl
  | cons a t ih => simp

theorem heap_set_concat (h : Heap) (x y : PImage) :
    (h ++ [x]).set h.length y = h ++ [y] := by
  induction h with
  | nil => rfl
  | cons a t ih => simp [List.set, ih]

theorem heapDraw_concat (h : Heap) (x : PImage) (op : DrawOp) :
    heapDraw (h ++ [x]) h.length op = h ++ [addOp x op] := by
  simp [heapDraw, heap_get_concat, heap_set_concat]

theorem renderTextWithGlowH_concat (h : Heap) (x : PImage) (text : String)
    (font : FontHandle) (xp yp : Int) (color : String) :
    renderTextWithGlowH (h ++ [x]) h.length text font xp yp color
      = h ++ [addOp x (glowOp text font xp yp color)] := by
  simp [renderTextWithGlowH, heapDraw_concat]

/-- Lemma: `composeSlotFrameH` allocates one new frame at the end of the heap, whose
value (and the resulting emoji cache) is given by `composeImage` applied to the
base frame's value. -/
theorem composeSlotFrameH_eq (env : RenderEnv) (c : EmojiCache) (h : Heap)
    (baseA : Nat) (slotNumber : Int) (teamname teamtag : String)
    (emojiValue : Option String) (fontFamily : Option String)
    (fontSize : Option Nat) (fontColor : Option String)
    (paddingTop paddingBottom : Option Int) :
    composeSlotFrameH env c h baseA slotNumber teamname teamtag emojiValue
        fontFamily fontSize fontColor paddingTop paddingBottom
      = (h.length,
         h ++ [(composeImage env c
                  ((h.get? baseA).getD { width := 0, height := 0, content := 0, ops := [] })
                  slotNumber teamname teamtag emojiValue fontFamily fontSize
                  fontColor paddingTop paddingBottom).1],
         (composeImage env c
            ((h.get? baseA).getD { width := 0, height := 0, content := 0, ops := [] })
            slotNumber teamname teamtag emojiValue fontFamily fontSize
            fontColor paddingTop paddingBottom).2) := by
  unfold composeSlotFrameH composeImage heapAlloc
  cases emojiValue with
  | none => simp [renderTextWithGlowH_concat]
  | some ev =>
    by_cases hev : ev = ""
    · simp [hev, renderTextWithGlowH_concat]
    · by_cases hhttp : pyStartsWith ev "http"
      · simp only [hev, hhttp, if_false, if_true, renderTextWithGlowH_concat]
        rcases hfetch : fetchEmojiImage env.net c ev (pyOrNat fontSize 64) with ⟨r, cNew⟩
        cases r with
        | none => simp [heapDraw_concat]
        | some em => simp [heapDraw_concat]
      · simp [hev, hhttp, renderTextWithGlowH_concat]

theorem heap_get_append (h t : Heap) (i : Nat) (hi : i < h.length) :
    (h ++ t).get? i = h.get? i := by
  simp [List.get?_eq_getElem?, List.getElem?_append_left hi]

theorem heap_get_set_ne (hh : Heap) (a : Nat) (img : PImage) (i : Nat)
    (hne : i ≠ a) : (hh.set a img).get? i = hh.get? i := by
  simp [List.get?_eq_getElem?, List.getElem?_set_ne (Ne.symm hne)]

/-- A second fetch of the same `(url, target_px)` key returns the value the
first fetch returned: either the first call already hit the cache, or the
value it fetched is at the head of the cache, or it failed and fails again. -/
theorem fetchEmojiImage_stable (net : String → Option (Nat × Nat))
    (c : EmojiCache) (url : String) (px : Nat) :
    (fetchEmojiImage net (fetchEmojiImage net c url px).2 url px).1
      = (fetchEmojiImage net c url px).1 := by
  unfold fetchEmojiImage
  by_cases h0 : url = "" ∨ pyStartsWith url "http" = false
  · simp [h0]
  · simp only [h0, if_false]
    rcases hl : c.entries.lookup (url, px) with _ | img
    · rcases hn : net url with _ | ⟨w, hh⟩
      · simp [hl, hn]
      · simp [hl, hn, List.lookup]
    · simp [hl]

/-- Re-composing the same base frame with the cache produced by a first
composition yields the same frame value. -/
theorem composeImage_fst_stable (env : RenderEnv) (c : EmojiCache)
    (base : PImage) (slot : Int) (tn tt : String) (em ff : Option String)
    (fs : Option Nat) (fc : Option String) (pt pb : Option Int) :
    (composeImage env (composeImage env c base slot tn tt em ff fs fc pt pb).2
        base slot tn tt em ff fs fc pt pb).1
      = (composeImage env c base slot tn tt em ff fs fc pt pb).1 := by
  unfold composeImage
  cases em with
  | none => simp
  | some ev =>
    by_cases hev : ev = ""
    · simp [hev]
    · by_cases hh : pyStartsWith ev "http" = true
      · simp only [hev, hh, if_false, if_true]
        have hs := fetchEmojiImage_stable env.net c ev (pyOrNat fs 64)
        rcases h1 : fetchEmojiImage env.net c ev (pyOrNat fs 64) with ⟨r1, c1⟩
        rw [h1] at hs
        rcases h2 : fetchEmojiImage env.net c1 ev (pyOrNat fs 64) with ⟨r2, c2⟩
        rw [h2] at hs
        cases r1 <;> cases r2 <;> simp_all
      · simp [hev, hh]

/-! ## Claim theorems -/

/-- C4: composing identical `(frame, spec)` inputs twice, the second time from
the heap and emoji cache the first call left behind but from the same (by C6
unchanged) base frame, produces an identical composed frame — the only shared
mutable state, the emoji cache, does not change the result. -/
theorem compose_deterministic (env : RenderEnv) (c : EmojiCache) (h : Heap)
    (baseA : Nat) (slot : Int) (tn tt : String) (em ff : Option String)
    (fs : Option Nat) (fc : Option String) (pt pb : Option Int)
    (hA : baseA < h.length) :
    (let r1 := composeSlotFrameH env c h baseA slot tn tt em ff fs fc pt pb
     let r2 := composeSlotFrameH env r1.2.2 r1.2.1 baseA slot tn tt em ff fs fc pt pb
     r2.2.1.get? r2.1 = r1.2.1.get? r1.1) := by
  simp only [composeSlotFrameH_eq, heap_get_concat]
  rw [heap_get_append _ _ _ hA]
  exact congrArg some (composeImage_fst_stable env c _ slot tn tt em ff fs fc pt pb)

/-- C4 witness: a concrete double composition (one frame on the heap, emoji
fetched over the network on the first call only) returns the same composed
frame both times. -/
theorem compose_deterministic_witness :
    (let env : RenderEnv :=
       ⟨fun _ => some (32, 32), fun _ => false, fun _ t => (8 * t.length, 10)⟩
     let h : Heap := [⟨400, 120, 3, []⟩]
     let r1 := composeSlotFrameH env emptyEmojiCache h 0 5 "Falcons" "FLC"
       (some "http://cdn.discordapp.com/emojis/9.png") none none none (some 10) (some 10)
     let r2 := composeSlotFrameH env r1.2.2 r1.2.1 0 5 "Falcons" "FLC"
       (some "http://cdn.discordapp.com/emojis/9.png") none none none (some 10) (some 10)
     r2.2.1.get? r2.1 = r1.2.1.get? r1.1) :=
  compose_deterministic _ _ _ 0 5 "Falcons" "FLC" _ none none none _ _ (by decide)

/-- C6: `_compose_slot_frame` does not mutate its input: it allocates a new
frame (a fresh heap address) and every previously allocated image object — in
particular the input frame — is unchanged; likewise `_render_text_with_glow`
writes only to the canvas it is given and to nothing else on the heap. -/
theorem compose_no_mutation (env : RenderEnv) (c : EmojiCache) (h : Heap)
    (baseA : Nat) (slot : Int) (tn tt : String) (em ff : Option String)
    (fs : Option Nat) (fc : Option String) (pt pb : Option Int) :
    (∀ i, i < h.length →
       (composeSlotFrameH env c h baseA slot tn tt em ff fs fc pt pb).2.1.get? i
         = h.get? i) ∧
    (composeSlotFrameH env c h baseA slot tn tt em ff fs fc pt pb).1 = h.length ∧
    (∀ (hh : Heap) (canvas : Nat) (text : String) (font : FontHandle)
       (x y : Int) (color : String) (i : Nat), i ≠ canvas →
       (renderTextWithGlowH hh canvas text font x y color).get? i = hh.get? i) := by
  refine ⟨fun i hi => ?_, ?_, fun hh canvas text font x y color i hne => ?_⟩
  · simp only [composeSlotFrameH_eq]
    exact heap_get_append _ _ _ hi
  · simp only [composeSlotFrameH_eq]
  · unfold renderTextWithGlowH heapDraw
    rcases hg : hh.get? canvas with _ | img
    · rfl
    · exact heap_get_set_ne _ _ _ _ hne

/-- C6 witness: composing onto the first of two heap frames leaves the second
untouched, and a glow render at address 1 leaves address 0 untouched. -/
theorem compose_no_mutation_witness :
    ((composeSlotFrameH ⟨fun _ => none, fun _ => false, fun _ _ => (6, 7)⟩
        emptyEmojiCache [⟨400, 120, 3, []⟩, ⟨50, 60, 4, []⟩] 0 2 "" ""
        none none none none none none).2.1.get? 1
      = some ⟨50, 60, 4, []⟩) ∧
    ((renderTextWithGlowH [⟨9, 9, 0, []⟩, ⟨9, 9, 1, []⟩] 1 "x"
        FontHandle.bitmapDefault 0 0 "#FFF").get? 0 = some ⟨9, 9, 0, []⟩) := by
  constructor
  · rw [(compose_no_mutation ⟨fun _ => none, fun _ => false, fun _ _ => (6, 7)⟩
        emptyEmojiCache [⟨400, 120, 3, []⟩, ⟨50, 60, 4, []⟩] 0 2 "" ""
        none none none none none none).1 1 (by decide)]
    rfl
  · rw [(compose_no_mutation ⟨fun _ => none, fun _ => false, fun _ _ => (6, 7)⟩
        emptyEmojiCache [] 0 0 "" "" none none none none none none).2.2
        [⟨9, 9, 0, []⟩, ⟨9, 9, 1, []⟩] 1 "x" FontHandle.bitmapDefault 0 0 "#FFF"
        0 (by decide)]
    rfl

/-- C5: for every frame height and non-negative paddings, the vertical band
computation is total (it never raises): when `H - paddingBottom < paddingTop`
the usable band height degrades to 1 pixel, and otherwise the band is
`[paddingTop, H - paddingBottom]` (with the usable height floored at 1 px). -/
theorem band_never_errors (H pt pb : Int) (hpt : 0 ≤ pt) (_hpb : 0 ≤ pb) :
    1 ≤ (vertBand H (some pt) (some pb)).2.2 ∧
    (H - pb < pt → (vertBand H (some pt) (some pb)).2.2 = 1) ∧
    (pt ≤ H - pb →
      (vertBand H (some pt) (some pb)).1 = pt ∧
      (vertBand H (some pt) (some pb)).2.1 = H - pb ∧
      (vertBand H (some pt) (some pb)).2.2 = max 1 (H - pb - pt)) := by
  dsimp only [vertBand, Option.getD_some]
  omega

/-- C5 witness: a violated band (height 120, top 100, bottom 40) degrades to a
1 px usable band; a respected band (height 120, top 10, bottom 10) is
`[10, 110]`. -/
theorem band_never_errors_witness :
    ((vertBand 120 (some 100) (some 40)).2.2 = 1) ∧
    ((vertBand 120 (some 10) (some 10)).1 = 10 ∧
     (vertBand 120 (some 10) (some 10)).2.1 = 110) := by
  refine ⟨(band_never_errors 120 100 40 (by decide) (by decide)).2.1 (by decide), ?_⟩
  have h := (band_never_errors 120 10 10 (by decide) (by decide)).2.2 (by decide)
  exact ⟨h.1, h.2.1⟩

/-- C9: font resolution never raises — both `_load_font` (backend) and
`load_font` (utils) always return a handle, a truetype font at the requested
size or the built-in bitmap font, and when every truetype step fails they fall
through to the bitmap font. -/
theorem font_resolution_never_raises :
    (∀ (avail : String → Bool) (fam : Option String) (size : Nat),
       (∃ p, loadFont avail fam size = FontHandle.truetype p size) ∨
       loadFont avail fam size = FontHandle.bitmapDefault) ∧
    (∀ (avail : String → Bool) (fam : String) (size : Nat),
       (∃ p, loadFontUtils avail fam size = FontHandle.truetype p size) ∨
       loadFontUtils avail fam size = FontHandle.bitmapDefault) ∧
    (∀ (avail : String → Bool) (fam : Option String) (size : Nat),
       (truetypeLoad avail (localFontPath fam) size).isOk = false →
       (truetypeLoad avail dejavuSysPath size).isOk = false →
       loadFont avail fam size = FontHandle.bitmapDefault) ∧
    (∀ (avail : String → Bool) (fam : String) (size : Nat),
       (truetypeLoad avail fam size).isOk = false →
       (truetypeLoad avail dejavuSysPath size).isOk = false →
       loadFontUtils avail fam size = FontHandle.bitmapDefault) := by
  refine ⟨fun avail fam size => ?_, fun avail fam size => ?_,
          fun avail fam size h1 h2 => ?_, fun avail fam size h1 h2 => ?_⟩
  · unfold loadFont truetypeLoad
    split_ifs <;> first | exact Or.inl ⟨_, rfl⟩ | exact Or.inr rfl
  · unfold loadFontUtils truetypeLoad
    split_ifs <;> first | exact Or.inl ⟨_, rfl⟩ | exact Or.inr rfl
  · unfold loadFont truetypeLoad at *
    split_ifs at h1 h2 ⊢ <;> simp_all [Except.isOk, Except.toBool]
  · unfold loadFontUtils truetypeLoad at *
    split_ifs at h1 h2 ⊢ <;> simp_all [Except.isOk, Except.toBool]

/-- C9 witness: with no loadable font file anywhere, both resolvers return the
built-in bitmap font instead of raising. -/
theorem font_resolution_never_raises_witness :
    loadFont (fun _ => false) (some "NoSuchFont.ttf") 64 = FontHandle.bitmapDefault ∧
    loadFontUtils (fun _ => false) "NoSuchFont.ttf" 48 = FontHandle.bitmapDefault := by
  exact ⟨font_resolution_never_raises.2.2.1 (fun _ => false) (some "NoSuchFont.ttf") 64
           rfl rfl,
         font_resolution_never_raises.2.2.2 (fun _ => false) "NoSuchFont.ttf" 48
           rfl rfl⟩

/-- C7 counterexample: the team-label composition cited at
`backend/utils.py` lines 72-92 joins a non-empty name and tag with `" - "`,
not a single space, and falls back to the empty string, not a placeholder
literal, so the claim fails on that code. -/
theorem team_label_counterexample :
    mainLabelUtils "Falcons" "FLC" = "Falcons - FLC" ∧
    mainLabelUtils "Falcons" "FLC" ≠ "Falcons" ++ " " ++ "FLC" ∧
    mainLabelUtils "" "" = "" := by
  refine ⟨rfl, ?_, rfl⟩
  decide

/-- C7 amended: in the live composer `_compose_slot_frame` the centered label
is `"{name} {tag}"` when both are non-empty, else whichever is non-empty, else
the placeholder `"FreeSlot"`, and it is drawn horizontally centered on the full
frame width (`x = (W - main_w) // 2`); the legacy `draw_slot_on_image` variant
in `utils.py` instead joins with `" - "` and has no placeholder. -/
theorem team_label_amended (env : RenderEnv) (c : EmojiCache) (base : PImage)
    (slot : Int) (tn tt : String) (em ff : Option String) (fs : Option Nat)
    (fc : Option String) (ptop pbot : Option Int) :
    mainLabel tn tt
        = (if tn ≠ "" ∧ tt ≠ "" then tn ++ " " ++ tt
           else if tn ≠ "" then tn else if tt ≠ "" then tt else "FreeSlot") ∧
    mainLabelUtils tn tt
        = (if tn ≠ "" ∧ tt ≠ "" then tn ++ " - " ++ tt
           else if tn ≠ "" then tn else tt) ∧
    (let font := loadFont env.fontFile ff (pyOrNat fs 64)
     let color := pyOrStr fc "#FFFFFF"
     let band := vertBand (base.height : Int) ptop pbot
     let mainWH := env.measure font (mainLabel tn tt)
     let yText := band.1 + Int.fdiv (band.2.2 - (mainWH.2 : Int)) 2
     let centerX := Int.fdiv ((base.width : Int) - (mainWH.1 : Int)) 2
     ∃ tail,
       ((composeImage env c base slot tn tt em ff fs fc ptop pbot).1).ops
         = base.ops ++ [glowOp (toString slot ++ ":") font 24 yText color,
                        glowOp (mainLabel tn tt) font centerX yText color]
             ++ tail) := by
  refine ⟨rfl, rfl, ?_⟩
  simp only [composeImage, addOp]
  cases em with
  | none => exact ⟨[], by simp⟩
  | some ev =>
    by_cases hev : ev = ""
    · exact ⟨[], by simp [hev]⟩
    · by_cases hhttp : pyStartsWith ev "http" = true
      · simp only [hev, hhttp, if_false, if_true]
        rcases hfetch : fetchEmojiImage env.net c ev (pyOrNat fs 64) with ⟨r, cNew⟩
        cases r with
        | none => exact ⟨[], by simp [hfetch]⟩
        | some emv =>
          refine ⟨[DrawOp.pasteEmoji emv.1 emv.2
                     ((base.width : Int) - (emv.1 : Int) - 24)
                     ((vertBand (base.height : Int) ptop pbot).1 +
                       Int.fdiv ((vertBand (base.height : Int) ptop pbot).2.2
                         - (emv.2 : Int)) 2)], ?_⟩
          simp [hfetch]
      · refine ⟨[glowOp ev (loadFont env.fontFile ff (pyOrNat fs 64))
                   ((base.width : Int)
                     - ((env.measure (loadFont env.fontFile ff (pyOrNat fs 64)) ev).1 : Int)
                     - 24)
                   ((vertBand (base.height : Int) ptop pbot).1 +
                     Int.fdiv ((vertBand (base.height : Int) ptop pbot).2.2
                       - ((env.measure (loadFont env.fontFile ff (pyOrNat fs 64)) ev).2 : Int)) 2)
                   (pyOrStr fc "#FFFFFF")], ?_⟩
        simp [hev, hhttp]

/-- C3: the emoji reference grammar — an empty reference yields no bitmap; a
reference starting with the absolute URL scheme prefix `http` is used as the
fetch URL unchanged (by the utils resolver and by the backend normaliser); the
animated shortcode `<a:fire:123>` derives a CDN URL with extension `.gif`; the
static shortcode `<:fire:123>` derives `.png`; any other text resolves to no
bitmap, the composer instead drawing it as literal glow text, and an empty
reference adds no drawn element at all. -/
theorem emoji_grammar :
    emojiRefToUrlUtils "" = none ∧
    (∀ v : String, pyStartsWith v "http" = true → emojiRefToUrlUtils v = some v) ∧
    (emojiRefToUrlUtils "<a:fire:123>"
        = some "https://cdn.discordapp.com/emojis/123.gif?quality=lossless" ∧
     toEmojiValue (some "<a:fire:123>")
        = some "https://cdn.discordapp.com/emojis/123.gif?quality=lossless") ∧
    (emojiRefToUrlUtils "<:fire:123>"
        = some "https://cdn.discordapp.com/emojis/123.png?quality=lossless" ∧
     toEmojiValue (some "<:fire:123>")
        = some "https://cdn.discordapp.com/emojis/123.png?quality=lossless") ∧
    (∀ v : String, pyStartsWith v "http" = false →
       (pyStartsWith v "<" && pyEndsWith v ">") = false →
       emojiRefToUrlUtils v = none) ∧
    (∀ (env : RenderEnv) (c : EmojiCache) (base : PImage) (slot : Int)
       (tn tt : String) (ff : Option String) (fs : Option Nat)
       (fc : Option String) (ptop pbot : Option Int),
       composeImage env c base slot tn tt (some "") ff fs fc ptop pbot
         = composeImage env c base slot tn tt none ff fs fc ptop pbot) ∧
    (∀ (env : RenderEnv) (c : EmojiCache) (base : PImage) (slot : Int)
       (tn tt : String) (ff : Option String) (fs : Option Nat)
       (fc : Option String) (ptop pbot : Option Int) (ev : String),
       ev ≠ "" → pyStartsWith ev "http" = false →
       ∃ x y, (((composeImage env c base slot tn tt (some ev) ff fs fc
                   ptop pbot).1).ops).getLast?
         = some (glowOp ev (loadFont env.fontFile ff (pyOrNat fs 64)) x y
             (pyOrStr fc "#FFFFFF"))) := by
  refine ⟨rfl, ?_, ⟨by decide, by decide⟩, ⟨by decide, by decide⟩, ?_, ?_, ?_⟩
  · intro v hv
    have hne : ¬ v = "" := by
      rintro rfl
      exact absurd hv (by decide)
    simp [emojiRefToUrlUtils, hne, hv]
  · intro v h1 h2
    by_cases hv : v = ""
    · simp [emojiRefToUrlUtils, hv]
    · simp [emojiRefToUrlUtils, hv, h1, h2]
  · intro env c base slot tn tt ff fs fc ptop pbot
    simp [composeImage]
  · intro env c base slot tn tt ff fs fc ptop pbot ev hev hh
    refine ⟨(base.width : Int)
              - ((env.measure (loadFont env.fontFile ff (pyOrNat fs 64)) ev).1 : Int)
              - 24,
            (vertBand (base.height : Int) ptop pbot).1 +
              Int.fdiv ((vertBand (base.height : Int) ptop pbot).2.2
                - ((env.measure (loadFont env.fontFile ff (pyOrNat fs 64)) ev).2 : Int)) 2,
            ?_⟩
    simp [composeImage, hev, hh, addOp]

/-- C3 witness: concrete instances of every guarded clause — a bare URL passes
through unchanged, plain text resolves to no bitmap, and the composer draws
plain text as the last (glow-text) element. -/
theorem emoji_grammar_witness :
    emojiRefToUrlUtils "http://cdn.discordapp.com/emojis/9.png"
      = some "http://cdn.discordapp.com/emojis/9.png" ∧
    emojiRefToUrlUtils "fire" = none ∧
    (∃ x y, (((composeImage ⟨fun _ => none, fun _ => false, fun _ _ => (6, 7)⟩
                 emptyEmojiCache ⟨400, 120, 3, []⟩ 2 "A" "B" (some "fire")
                 none none none none none).1).ops).getLast?
       = some (glowOp "fire"
           (loadFont (fun _ => false) none (pyOrNat none 64)) x y
           (pyOrStr none "#FFFFFF"))) := by
  refine ⟨emoji_grammar.2.1 _ (by decide),
          emoji_grammar.2.2.2.2.1 "fire" (by decide) (by decide), ?_⟩
  exact emoji_grammar.2.2.2.2.2.2 ⟨fun _ => none, fun _ => false, fun _ _ => (6, 7)⟩
    emptyEmojiCache ⟨400, 120, 3, []⟩ 2 "A" "B" none none none none none "fire"
    (by decide) (by decide)

/-- C2 counterexample: the utils-side cache (`_EMOJI_CACHE`,
`backend/utils.py` lines 43-56) is keyed by the url alone — resolving the same
url at target height 64 and then at target height 32 performs only ONE network
fetch and returns the height-64 bitmap for the height-32 request, so the claim
that the bitmap cache is keyed by `(url, targetHeightPx)` fails on that code. -/
theorem emoji_cache_counterexample :
    (let net : String → Option (Nat × Nat) :=
       fun u => if u = "http://cdn/e.png" then some (100, 100) else none
     let r1 := fetchEmojiBitmap net emptyUtilsCache "http://cdn/e.png" 64
     let r2 := fetchEmojiBitmap net r1.2 "http://cdn/e.png" 32
     r1.1 = some (64, 64) ∧ r2.1 = some (64, 64) ∧ r2.2.fetchCount = 1) := by
  decide

/-- C2 amended: the backend cache (`EMOJI_IMG_CACHE` of `backend/main.py`) is
keyed by the pair `(url, target_px)`: distinct heights fetch twice and return
bitmaps scaled to each height, and repeating the same pair performs no further
fetch and returns the cached bitmap; the utils cache (`_EMOJI_CACHE` of
`backend/utils.py`) is keyed by the url alone, so — whenever the first
resolution's scaling succeeds, i.e. its computed width `w * t1 / h` is
nonzero — a second height returns the first height's bitmap after a single
fetch. -/
theorem emoji_cache_amended (net : String → Option (Nat × Nat)) (url : String)
    (w h t1 t2 n : Nat) (hurl : pyStartsWith url "http" = true)
    (hnet : net url = some (w, h)) (hpos : 0 < h) (ht1 : 0 < t1) (ht2 : 0 < t2)
    (hne : t1 ≠ t2) (hw1 : h ≤ w * t1) :
    (let c0 : EmojiCache := { entries := [], fetchCount := n }
     let r1 := fetchEmojiImage net c0 url t1
     let r2 := fetchEmojiImage net r1.2 url t2
     let r3 := fetchEmojiImage net r2.2 url t2
     r1.1 = some (max 1 (w * t1 / h), t1) ∧
     r2.1 = some (max 1 (w * t2 / h), t2) ∧
     r2.2.fetchCount = n + 2 ∧
     r3.1 = r2.1 ∧ r3.2 = r2.2) ∧
    (let u0 : UtilsEmojiCache := { entries := [], fetchCount := n }
     let s1 := fetchEmojiBitmapCore net u0 url t1
     let s2 := fetchEmojiBitmapCore net s1.2 url t2
     s1.1 = some (w * t1 / h, t1) ∧ s2.1 = some (w * t1 / h, t1) ∧
     s2.2.fetchCount = n + 1) := by
  have hne0 : ¬ url = "" := by
    rintro rfl
    exact absurd hurl (by decide)
  have hguard : ¬ (url = "" ∨ pyStartsWith url "http" = false) := by
    simp [hne0, hurl]
  have hkey : (((url, t2) : String × Nat) == (url, t1)) = false := by
    apply beq_eq_false_iff_ne.mpr
    simp only [ne_eq, Prod.mk.injEq, not_and, true_implies]
    exact fun hc => hne hc.symm
  have hh0 : ¬ h = 0 := by omega
  have hscale1 : scaleToHeight w h t1 = (max 1 (w * t1 / h), t1) := by
    simp [scaleToHeight, show max 1 h = h by omega,
      Nat.mul_div_cancel_left t1 hpos, show max 1 t1 = t1 by omega]
  have hscale2 : scaleToHeight w h t2 = (max 1 (w * t2 / h), t2) := by
    simp [scaleToHeight, show max 1 h = h by omega,
      Nat.mul_div_cancel_left t2 hpos, show max 1 t2 = t2 by omega]
  have e1 : fetchEmojiImage net { entries := [], fetchCount := n } url t1
      = (some (max 1 (w * t1 / h), t1),
         { entries := [((url, t1), (max 1 (w * t1 / h), t1))],
           fetchCount := n + 1 }) := by
    simp [fetchEmojiImage, hguard, hnet, List.lookup, hscale1]
  have e2 : fetchEmojiImage net
      { entries := [((url, t1), (max 1 (w * t1 / h), t1))], fetchCount := n + 1 }
      url t2
      = (some (max 1 (w * t2 / h), t2),
         { entries := [((url, t2), (max 1 (w * t2 / h), t2)),
                       ((url, t1), (max 1 (w * t1 / h), t1))],
           fetchCount := n + 2 }) := by
    simp [fetchEmojiImage, hguard, hnet, List.lookup, hkey, hscale2]
  have e3 : fetchEmojiImage net
      { entries := [((url, t2), (max 1 (w * t2 / h), t2)),
                    ((url, t1), (max 1 (w * t1 / h), t1))], fetchCount := n + 2 }
      url t2
      = (some (max 1 (w * t2 / h), t2),
         { entries := [((url, t2), (max 1 (w * t2 / h), t2)),
                       ((url, t1), (max 1 (w * t1 / h), t1))],
           fetchCount := n + 2 }) := by
    simp [fetchEmojiImage, hguard, List.lookup]
  have hwpos1 : ¬ (w * t1 / h = 0 ∨ t1 = 0) := by
    have := (Nat.one_le_div_iff hpos).mpr hw1
    omega
  have u1 : fetchEmojiBitmapCore net { entries := [], fetchCount := n } url t1
      = (some (w * t1 / h, t1),
         { entries := [(url, (w * t1 / h, t1))], fetchCount := n + 1 }) := by
    simp only [fetchEmojiBitmapCore, List.lookup, hnet]
    rw [if_neg hh0, if_neg hwpos1]
  have u2 : fetchEmojiBitmapCore net
      { entries := [(url, (w * t1 / h, t1))], fetchCount := n + 1 } url t2
      = (some (w * t1 / h, t1),
         { entries := [(url, (w * t1 / h, t1))], fetchCount := n + 1 }) := by
    simp [fetchEmojiBitmapCore, List.lookup]
  refine ⟨?_, ?_⟩
  · dsimp only
    rw [e1]
    dsimp only
    rw [e2]
    dsimp only
    rw [e3]
    exact ⟨rfl, rfl, rfl, rfl, rfl⟩
  · dsimp only
    rw [u1]
    dsimp only
    rw [u2]
    exact ⟨rfl, rfl, rfl⟩

/-- C2 amended witness: a 50×25 source image, heights 10 then 20 then 20
again on the backend cache, and heights 10 then 20 on the utils cache. -/
theorem emoji_cache_amended_witness :
    (let net : String → Option (Nat × Nat) :=
       fun u => if u = "http://e" then some (50, 25) else none
     let c0 : EmojiCache := { entries := [], fetchCount := 0 }
     let r1 := fetchEmojiImage net c0 "http://e" 10
     let r2 := fetchEmojiImage net r1.2 "http://e" 20
     let r3 := fetchEmojiImage net r2.2 "http://e" 20
     r1.1 = some (max 1 (50 * 10 / 25), 10) ∧
     r2.1 = some (max 1 (50 * 20 / 25), 20) ∧
     r2.2.fetchCount = 0 + 2 ∧
     r3.1 = r2.1 ∧ r3.2 = r2.2) ∧
    (let u0 : UtilsEmojiCache := { entries := [], fetchCount := 0 }
     let s1 := fetchEmojiBitmapCore (fun u =>
       if u = "http://e" then some (50, 25) else none) u0 "http://e" 10
     let s2 := fetchEmojiBitmapCore (fun u =>
       if u = "http://e" then some (50, 25) else none) s1.2 "http://e" 20
     s1.1 = some (50 * 10 / 25, 10) ∧ s2.1 = some (50 * 10 / 25, 10) ∧
     s2.2.fetchCount = 0 + 1) :=
  emoji_cache_amended _ "http://e" 50 25 10 20 0 (by decide) (by decide)
    (by decide) (by decide) (by decide) (by decide) (by decide)

theorem sendSlots_network_count (server : Nat → DResp) (ch : String) :
    ∀ (slots : List SlotDelivery) (k : Nat),
      ((sendSlotsLoop server ch slots k).1.filter DAction.isNetwork).length
        = slots.length := by
  intro slots
  induction slots with
  | nil => intro k; rfl
  | cons s rest ih =>
    intro k
    simp only [sendSlotsLoop]
    by_cases he : (s.discordMessageId.isSome && (s.discordChannelId == some ch)) = true <;>
      by_cases hst : (server k).status = 429 <;>
        simp [he, hst, DAction.isNetwork, ih]

theorem sendSlots_records_length (server : Nat → DResp) (ch : String) :
    ∀ (slots : List SlotDelivery) (k : Nat),
      ((sendSlotsLoop server ch slots k).2.1).length = slots.length := by
  intro slots
  induction slots with
  | nil => intro k; rfl
  | cons s rest ih =>
    intro k
    simp only [sendSlotsLoop]
    simp [ih]

/-- C8 counterexample: with a server that throttles the first request and
would succeed on a retry, the bulk delivery loop performs exactly ONE network
attempt for the throttled slot, creates no message for it (its record keeps no
message id), and moves on — it does not retry the item once as claimed, and no
successful message creation results. -/
theorem rate_limit_counterexample :
    (let server : Nat → DResp := fun kk =>
       if kk = 0 then ⟨429, some 1, none⟩ else ⟨200, none, some "m1"⟩
     let r := sendSlotsLoop server "chan" [⟨2, none, none⟩] 0
     (r.1.filter DAction.isNetwork).length = 1 ∧
     r.1.headD (.sleep 0) = .create "chan" 2 ∧
     (r.1.get? 1).map DAction.isNetwork = some false ∧
     r.2.1 = [⟨2, none, none⟩]) := by
  decide

/-- C8 amended: on a 429 response the delivery loop sleeps for the declared
`retry_after` (default 1) plus the 0.3 s margin and then continues with the
NEXT item: the throttled item is not retried (every item gets exactly one
network attempt per pass) and, when the throttled attempt was a creation, the
slot keeps no message id — so no duplicate messages, but also no successful
creation for that item in this pass. -/
theorem rate_limit_amended (server : Nat → DResp) (ch : String)
    (s : SlotDelivery) (rest : List SlotDelivery) (k : Nat)
    (h429 : (server k).status = 429) :
    (let r := sendSlotsLoop server ch (s :: rest) k
     (r.1.filter DAction.isNetwork).length = (s :: rest).length ∧
     r.1.get? 1 = some (DAction.sleep ((server k).retryAfter.getD 1 + 3/10)) ∧
     r.2.1.get? 0 = some s ∧
     r.2.1.length = (s :: rest).length) := by
  refine ⟨sendSlots_network_count server ch (s :: rest) k, ?_, ?_,
          sendSlots_records_length server ch (s :: rest) k⟩
  · simp only [sendSlotsLoop]
    simp [h429]
  · simp only [sendSlotsLoop]
    by_cases he : (s.discordMessageId.isSome && (s.discordChannelId == some ch)) = true
    · simp [he]
    · have hns : ¬ (200 ≤ (server k).status ∧ (server k).status ≤ 299) := by
        rw [h429]
        omega
      simp [he, hns]

/-- C8 amended witness: a server that always throttles with `retry_after = 1`;
the single slot is attempted once, left unchanged, and the loop sleeps 1.3 s. -/
theorem rate_limit_amended_witness :
    (let r := sendSlotsLoop (fun _ => (⟨429, some 1, none⟩ : DResp)) "c9"
       ((⟨3, none, none⟩ : SlotDelivery) :: []) 0
     (r.1.filter DAction.isNetwork).length
       = ((⟨3, none, none⟩ : SlotDelivery) :: []).length ∧
     r.1.get? 1 = some (DAction.sleep
       (((fun (_ : Nat) => (⟨429, some 1, none⟩ : DResp)) 0).retryAfter.getD 1
         + 3/10)) ∧
     r.2.1.get? 0 = some ⟨3, none, none⟩ ∧
     r.2.1.length = ((⟨3, none, none⟩ : SlotDelivery) :: []).length) :=
  rate_limit_amended _ _ _ _ _ rfl

theorem composeGifStep_fold (env : RenderEnv) (fw fh : Nat) (slot : Int)
    (tn tt : String) (em ff : Option String) (fs : Option Nat)
    (fc : Option String) (pt pb : Option Int) :
    ∀ (l : List (Nat × ℚ)) (acc : List PImage × List ℚ × EmojiCache),
      (l.foldl (composeGifStep env fw fh slot tn tt em ff fs fc pt pb) acc).1.length
          = acc.1.length + l.length ∧
      (l.foldl (composeGifStep env fw fh slot tn tt em ff fs fc pt pb) acc).2.1
          = acc.2.1 ++ l.map (fun fd => fd.2) := by
  intro l
  induction l with
  | nil => intro acc; simp
  | cons fd rest ih =>
    intro acc
    rcases ih (composeGifStep env fw fh slot tn tt em ff fs fc pt pb acc fd)
      with ⟨ih1, ih2⟩
    refine ⟨?_, ?_⟩
    · rw [List.foldl_cons, ih1]
      simp [composeGifStep]
      omega
    · rw [List.foldl_cons, ih2]
      simp [composeGifStep]

/-- What the GIF re-encoder actually declares: the frame count of the source,
loop forever, full-frame disposal, and one SHARED duration — the reader
metadata's single value (default 80 ms) — for every frame. -/
theorem generateSingleGif_spec (env : RenderEnv) (c : EmojiCache)
    (g : GifSource) (fw fh : Nat) (slot : Int) (tn tt : String)
    (em ff : Option String) (fs : Option Nat) (fc : Option String)
    (pt pb : Option Int) :
    (generateSingleGif env c g fw fh slot tn tt em ff fs fc pt pb).1.frames.length
        = g.frames.length ∧
    (generateSingleGif env c g fw fh slot tn tt em ff fs fc pt pb).1.durationsMs
        = List.replicate g.frames.length ((effectiveMetaDuration g : Nat) : Int) ∧
    (generateSingleGif env c g fw fh slot tn tt em ff fs fc pt pb).1.loopCount = 0 ∧
    (generateSingleGif env c g fw fh slot tn tt em ff fs fc pt pb).1.disposal = 2 := by
  rcases composeGifStep_fold env fw fh slot tn tt em ff fs fc pt pb
    (iterGifFrames g) ([], [], c) with ⟨h1, h2⟩
  have hlen : (iterGifFrames g).length = g.frames.length := by
    simp [iterGifFrames]
  have hdur : (iterGifFrames g).map (fun fd => fd.2)
      = List.replicate g.frames.length ((effectiveMetaDuration g : ℚ) / 1000) := by
    simp only [iterGifFrames, List.map_map]
    exact List.map_const' _ _
  have hpy : pyInt ((effectiveMetaDuration g : ℚ) / 1000 * 1000)
      = ((effectiveMetaDuration g : Nat) : Int) := by
    rw [div_mul_cancel₀ _ (by norm_num : (1000 : ℚ) ≠ 0)]
    simp [pyInt, Rat.num_natCast, Rat.den_natCast]
  refine ⟨?_, ?_, rfl, rfl⟩
  · simp only [generateSingleGif]
    simp only [List.length_map, h1, hlen]
    simp
  · simp only [generateSingleGif]
    simp only [h2, hdur, List.nil_append, List.map_replicate, hpy]

/-- C1 counterexample: a source animation with per-frame durations
`[100ms, 200ms, 100ms]` (the reader's metadata reporting 100 ms) is re-encoded
with declared durations `[100, 100, 100]` — the single metadata duration is
applied to every frame, so per-frame timing is NOT preserved; frame count and
the loop-forever flag are. -/
theorem animation_timing_counterexample :
    (let env : RenderEnv := ⟨fun _ => none, fun _ => false, fun _ _ => (6, 7)⟩
     let g : GifSource :=
       { frames := [(0, 100), (1, 200), (2, 100)], metaDurationMs := some 100 }
     let out := (generateSingleGif env emptyEmojiCache g 400 120 7 "A" "B"
       none none none none none none).1
     g.frames.map (fun f => (f.2 : Int)) = [100, 200, 100] ∧
     out.durationsMs = [100, 100, 100] ∧
     out.durationsMs ≠ [100, 200, 100] ∧
     out.frames.length = 3 ∧ out.loopCount = 0) := by
  have h := generateSingleGif_spec
    ⟨fun _ => none, fun _ => false, fun _ _ => (6, 7)⟩ emptyEmojiCache
    { frames := [(0, 100), (1, 200), (2, 100)], metaDurationMs := some 100 }
    400 120 7 "A" "B" none none none none none none
  refine ⟨by decide, ?_, ?_, h.1, h.2.2.1⟩
  · rw [h.2.1]
    decide
  · rw [h.2.1]
    decide

/-- C1 amended: the animated render preserves the frame count and sets the
infinite-loop flag, but it declares the same duration for every output frame:
the single value the reader's container metadata reports (with 80 ms used when
the metadata declares none or zero), not the source's per-frame durations. -/
theorem animation_timing_amended (env : RenderEnv) (c : EmojiCache)
    (g : GifSource) (fw fh : Nat) (slot : Int) (tn tt : String)
    (em ff : Option String) (fs : Option Nat) (fc : Option String)
    (pt pb : Option Int) :
    (generateSingleGif env c g fw fh slot tn tt em ff fs fc pt pb).1.frames.length
        = g.frames.length ∧
    (generateSingleGif env c g fw fh slot tn tt em ff fs fc pt pb).1.durationsMs
        = List.replicate g.frames.length ((effectiveMetaDuration g : Nat) : Int) ∧
    (generateSingleGif env c g fw fh slot tn tt em ff fs fc pt pb).1.loopCount
        = 0 :=
  ⟨(generateSingleGif_spec env c g fw fh slot tn tt em ff fs fc pt pb).1,
   (generateSingleGif_spec env c g fw fh slot tn tt em ff fs fc pt pb).2.1,
   (generateSingleGif_spec env c g fw fh slot tn tt em ff fs fc pt pb).2.2.1⟩

theorem defaultSlots_sorted (g : String) : List.Sorted slotLe (defaultSlots g) := by
  unfold defaultSlots List.Sorted
  have h : List.Pairwise (fun a b : Nat => (a : Int) ≤ b) (List.range' 2 24) := by
    decide
  exact List.Pairwise.map _ (fun a b hab => hab) h

theorem querySlots_append_fresh (db : List SlotRow) (g : String)
    (hq : querySlots db g = []) :
    querySlots (db ++ defaultSlots g) g = defaultSlots g := by
  unfold querySlots at *
  have hfil : db.filter (fun s => s.guildId == g) = [] := by
    have hperm := List.perm_insertionSort slotLe (db.filter (fun s => s.guildId == g))
    rw [hq] at hperm
    exact hperm.symm.eq_nil
  rw [List.filter_append, hfil, List.nil_append]
  have hself : (defaultSlots g).filter (fun s => s.guildId == g) = defaultSlots g := by
    apply List.filter_eq_self.mpr
    intro a ha
    rcases List.mem_map.mp ha with ⟨m, _, rfl⟩
    simp [defaultSlot]
  rw [hself]
  exact (defaultSlots_sorted g).insertionSort_eq

/-- C10: listing the slots of a guild with no stored rows creates and persists
exactly the 24 default rows numbered 2 through 25 and returns them ordered by
slot number; listing a guild that already has rows returns those rows ordered
by slot number and leaves the database unchanged. -/
theorem list_slots_lazy (db : List SlotRow) (g : String) :
    (querySlots db g = [] →
       listSlots db g = (defaultSlots g, db ++ defaultSlots g) ∧
       (defaultSlots g).length = 24 ∧
       (defaultSlots g).map SlotRow.slotNumber
         = (List.range' 2 24).map (fun n => (n : Int)) ∧
       List.Sorted slotLe (defaultSlots g)) ∧
    (querySlots db g ≠ [] →
       listSlots db g = (querySlots db g, db) ∧
       List.Sorted slotLe (querySlots db g) ∧
       (querySlots db g).Perm (db.filter (fun s => s.guildId == g))) := by
  constructor
  · intro hq
    have hempty : (querySlots db g).isEmpty = true := by simp [hq]
    refine ⟨?_, ?_, ?_, defaultSlots_sorted g⟩
    · simp only [listSlots, hempty, if_true]
      rw [querySlots_append_fresh db g hq]
    · rw [defaultSlots, List.length_map]
      exact List.length_range' ..
    · rw [defaultSlots, List.map_map]
      rfl
  · intro hq
    have hne : (querySlots db g).isEmpty = false := by
      simp [List.isEmpty_iff, hq]
    refine ⟨?_, List.sorted_insertionSort slotLe _,
            List.perm_insertionSort slotLe _⟩
    simp only [listSlots, hne]
    rfl

/-- C10 witness: a guild with no rows gets the 24 defaults persisted and
returned; a guild that already has a row gets it back with the database
unchanged. -/
theorem list_slots_lazy_witness :
    (listSlots [] "g1" = (defaultSlots "g1", [] ++ defaultSlots "g1") ∧
     (defaultSlots "g1").length = 24) ∧
    listSlots [defaultSlot "g2" 7] "g2"
      = (querySlots [defaultSlot "g2" 7] "g2", [defaultSlot "g2" 7]) := by
  have h1 := (list_slots_lazy [] "g1").1 rfl
  have h2 := (list_slots_lazy [defaultSlot "g2" 7] "g2").2 (by decide)
  exact ⟨⟨h1.1, h1.2.1⟩, h2.1⟩

end SlotManager
